import Mathlib

/-!
Shallow embedding of the disease_hallmarks scoring pipeline
(repository Insilico-org/disease_hallmarks) and proofs about the
claims of its specification.

Each definition below is translated from a named function of the
Python source:

* Cache.get / Cache.set        — disease_hallmarks/cache.py
* get_normalization_factor     — disease_hallmarks/pathway_normalizer.py
* calculate_hallmark_scores    — disease_hallmarks/analysis.py
  (DiseaseAnalyzer._calculate_hallmark_scores, memoization wrapper and
  per-hallmark scoring passes)
* analyze_pathway              — disease_hallmarks/pathway_agent.py
* add_list cache key           — disease_hallmarks/api_callers.py (EnrichrCaller)
* get_disease_targets          — disease_hallmarks/api_callers.py (OpenTargetsAPI)

Python floats are modelled as real numbers where scores are computed
(exact arithmetic) and as rationals where only decidable comparisons and
sorting of the values matter (score thresholds, cache keys).  Python
dicts keyed by strings or tuples are modelled as association lists with
first-match lookup; overwriting an entry is modelled by prepending.
-/

namespace DiseaseHallmarks

/-- First-match lookup in an association list; models Python dict lookup
(each dict in scope holds at most one binding per key, and overwriting is
modelled by prepending, which shadows older bindings). -/
def memoLookup {κ ρ : Type} [DecidableEq κ] : List (κ × ρ) → κ → Option ρ
  | [], _ => none
  | e :: rest, k => if e.1 = k then some e.2 else memoLookup rest k

/-! ## Cache (disease_hallmarks/cache.py)

`Cache.get` reads an entry written by `Cache.set`; every entry written by
`set` carries the write-time timestamp.  Timestamps and the TTL are whole
seconds, modelled as integers.  The file-per-key store is modelled as an
association list keyed by the cache key (the md5 filename is a derived
name for the same key), holding at most one entry per key.  The optional
`_memory_cache` attribute created by `preload_cache` is modelled by the
`memory` field: `none` while the attribute does not exist, and the
preloaded key-to-value dict once it does. -/

structure CacheEntry (V : Type) where
  timestamp : Int
  value : V

structure CacheState (V : Type) where
  ttl : Int
  store : List (String × CacheEntry V)
  memory : Option (List (String × V))

namespace Cache

/-- cache.py line 13: special value for infinite TTL (never expire). -/
def INFINITE_TTL : Int := -1

/-- cache.py `Cache.get` lines 42-66, the file-cache path: missing file
gives `none`; with the infinite-TTL sentinel the value is returned with
no expiry check; otherwise the value is returned exactly when
`now - timestamp < ttl`. -/
def get_file_cache {V : Type} (c : CacheState V) (now : Int) (key : String) :
    Option V :=
  match memoLookup c.store key with
  | none => none
  | some e =>
    if c.ttl = INFINITE_TTL then some e.value
    else if now - e.timestamp < c.ttl then some e.value
    else none

/-- cache.py `Cache.get` lines 38-40: the in-memory lookup tried first,
when the `_memory_cache` attribute exists. -/
def memoryLookup {V : Type} (c : CacheState V) (key : String) : Option V :=
  match c.memory with
  | some mem => memoLookup mem key
  | none => none

/-- cache.py `Cache.get` (lines 33-66): a hit in the in-memory cache is
returned directly, with no expiry check; otherwise the file-cache path
runs. -/
def get {V : Type} (c : CacheState V) (now : Int) (key : String) : Option V :=
  match memoryLookup c key with
  | some v => some v
  | none => get_file_cache c now key

/-- cache.py `Cache.set` (lines 68-79): writes the value together with the
current timestamp, overwriting any previous file for the key; the
in-memory cache is not touched. -/
def set {V : Type} (c : CacheState V) (now : Int) (key : String) (v : V) :
    CacheState V :=
  { c with store := (key, ⟨now, v⟩) :: c.store.filter (fun e => e.1 != key) }

/-- cache.py `Cache.preload_cache` (lines 269-316): loads every stored
entry into the in-memory dict, keeping an entry when the TTL is the
infinite sentinel or the entry is fresh at preload time; expiry is
checked once here and never again on reads. -/
def preload_cache {V : Type} (c : CacheState V) (now : Int) : CacheState V :=
  { c with memory := some ((c.store.filter (fun e =>
      if c.ttl = INFINITE_TTL then true
      else decide (now - e.2.timestamp < c.ttl))).map
        (fun e => (e.1, e.2.value))) }

end Cache

/-! ## Pathway Normalizer (disease_hallmarks/pathway_normalizer.py)

`hallmark_pathway_counts` is a dict from hallmark name to pathway count,
modelled as an association list. -/

/-- pathway_normalizer.py `PathwayNormalizer.get_normalization_factor`
(lines 162-187): 1.0 when the count table is empty, the hallmark is absent,
or its count is zero; otherwise `1 / sqrt(log2(count + 1) + 1)`. -/
noncomputable def get_normalization_factor
    (hallmark_pathway_counts : List (String × Nat)) (hallmark : String) : ℝ :=
  if hallmark_pathway_counts.isEmpty then 1.0
  else
    match memoLookup hallmark_pathway_counts hallmark with
    | none => 1.0
    | some count =>
      if count = 0 then 1.0
      else 1.0 / Real.sqrt (Real.logb 2 ((count : ℝ) + 1) + 1)

/-! ## Hallmark Scorer (disease_hallmarks/analysis.py, per-hallmark passes)

`DiseaseAnalyzer._calculate_hallmark_scores` iterates over the fixed
hallmarks; for one hallmark the computation depends on the disease gene
list, the hallmark reference gene set, the enriched pathways with their
p-values (a dict, modelled as an ordered association list), the pathway
classifier results (`analyze_pathways` maps each enriched pathway through
`analyze_pathway`, modelled by the function `classify`), and the
normalizer count table.  The entropy and diversity statistics computed
between the two passes are only printed in verbose mode and do not feed
the final per-hallmark score. -/

/-- analysis.py line 220: pathway weight `-log10(p)` for positive p, else 0. -/
noncomputable def pathwayWeight (p : ℝ) : ℝ :=
  if 0 < p then -(Real.logb 10 p) else 0

/-- analysis.py lines 216-223: the enriched pathways whose classifier labels
contain the hallmark (in agent naming), in input order. -/
def contributing (classify : String → List String) (agent_hallmark_name : String)
    (enriched_pathways : List (String × ℝ)) : List (String × ℝ) :=
  enriched_pathways.filter (fun pv => agent_hallmark_name ∈ classify pv.1)

/-- analysis.py line 222: the loop counter `pathway_count`. -/
def pathway_count (classify : String → List String) (agent_hallmark_name : String)
    (enriched_pathways : List (String × ℝ)) : ℕ :=
  (contributing classify agent_hallmark_name enriched_pathways).length

/-- analysis.py line 223: the accumulated `relevant_pathways` list. -/
def relevant_pathways (classify : String → List String)
    (agent_hallmark_name : String) (enriched_pathways : List (String × ℝ)) :
    List String :=
  (contributing classify agent_hallmark_name enriched_pathways).map Prod.fst

/-- analysis.py line 221: the accumulated pathway weight sum. -/
noncomputable def pathway_weight_sum (classify : String → List String)
    (agent_hallmark_name : String) (enriched_pathways : List (String × ℝ)) : ℝ :=
  ((contributing classify agent_hallmark_name enriched_pathways).map
    (fun pv => pathwayWeight pv.2)).sum

/-- analysis.py lines 212-238: the pathway score after averaging, the floored
normalization multiply, and the pathway-count bonus multiply; 0 when no
pathway contributes. -/
noncomputable def pathway_score_calc (normalization_factor : ℝ)
    (weight_sum : ℝ) (count : ℕ) : ℝ :=
  if 0 < count then
    (weight_sum / (count : ℝ) * max normalization_factor 0.5) *
      (1 + min (Real.logb 2 ((count : ℝ) + 1) / 4) 1.0)
  else 0

/-- models.py `HallmarkScore` (the fields written by
`_calculate_hallmark_scores`). -/
structure HallmarkScore where
  name : String
  gene_overlap_score : ℝ
  pathway_score : ℝ
  total_score : ℝ
  overlapping_genes : List String
  relevant_pathways : List String

/-- analysis.py lines 196-258 (first pass) and 299-320 (second pass) for one
hallmark: gene overlap score, pathway score, raw combined score with the
0.3/0.7 weights, and the final total score after the pathway diversity
adjustment. -/
noncomputable def scoreHallmark (hallmark_pathway_counts : List (String × Nat))
    (classify : String → List String) (disease_genes : List String)
    (hallmark agent_hallmark_name : String) (hallmark_genes : Finset String)
    (enriched_pathways : List (String × ℝ)) : HallmarkScore :=
  let overlapping := disease_genes.toFinset ∩ hallmark_genes
  let gene_score : ℝ :=
    if hallmark_genes.Nonempty then
      (overlapping.card : ℝ) / (hallmark_genes.card : ℝ)
    else 0
  let pc := pathway_count classify agent_hallmark_name enriched_pathways
  let ps := pathway_score_calc
    (get_normalization_factor hallmark_pathway_counts hallmark)
    (pathway_weight_sum classify agent_hallmark_name enriched_pathways) pc
  let raw_total := gene_score * 0.3 + ps * 0.7
  let pathway_diversity := min (Real.sqrt ((pc : ℝ) + 1) / Real.sqrt 10) 1.5
  { name := hallmark
    gene_overlap_score := gene_score
    pathway_score := ps
    total_score := raw_total * pathway_diversity
    overlapping_genes := overlapping.toList
    relevant_pathways :=
      relevant_pathways classify agent_hallmark_name enriched_pathways }

/-! ## Scorer memoization (analysis.py lines 133-145 and 322-325)

`_calculate_hallmark_scores` first builds the hashable key
`(tuple(sorted(disease_genes)), tuple(sorted(enriched_pathways.items())))`,
returns the stored mapping when the key is present in
`_hallmark_score_cache`, and otherwise computes the scores and stores them
under the key.  The body between the cache check and the store is abstracted
as `compute`; p-values are modelled as rationals so that the sort of the
(pathway, p-value) pairs is decidable, as the float comparison is in
Python.  The missing `_hallmark_score_cache` attribute of a fresh analyzer
is modelled as the empty memo list. -/

/-- Insertion into a sorted list, the helper for `sortBy`. -/
def insertSorted {α : Type} (le : α → α → Bool) (x : α) : List α → List α
  | [] => [x]
  | y :: ys => if le x y then x :: y :: ys else y :: insertSorted le x ys

/-- Model of the Python builtin `sorted` (a stable comparison sort). -/
def sortBy {α : Type} (le : α → α → Bool) : List α → List α
  | [] => []
  | x :: xs => insertSorted le x (sortBy le xs)

/-- String comparison used by `sorted` on gene symbols. -/
def strLe (a b : String) : Bool := decide (a ≤ b)

/-- Lexicographic tuple comparison used by `sorted` on (pathway, p-value)
pairs. -/
def pairLe (a b : String × ℚ) : Bool :=
  if a.1 = b.1 then decide (a.2 ≤ b.2) else decide (a.1 < b.1)

/-- analysis.py lines 134-137: the memo key of one scorer call. -/
def scorerKey (disease_genes : List String)
    (enriched_pathways : List (String × ℚ)) :
    List String × List (String × ℚ) :=
  (sortBy strLe disease_genes, sortBy pairLe enriched_pathways)

/-- analysis.py lines 133-145 and 322-325: the memoization wrapper of
`_calculate_hallmark_scores`; `compute` stands for the scoring body and `R`
for the resulting score mapping.  Returns the result together with the
updated memo table. -/
def calculate_hallmark_scores {R : Type}
    (compute : List String → List (String × ℚ) → R)
    (memo : List ((List String × List (String × ℚ)) × R))
    (disease_genes : List String) (enriched_pathways : List (String × ℚ)) :
    R × List ((List String × List (String × ℚ)) × R) :=
  let key := scorerKey disease_genes enriched_pathways
  match memoLookup memo key with
  | some r => (r, memo)
  | none =>
    let r := compute disease_genes enriched_pathways
    (r, (key, r) :: memo)

/-! ## Association Fetcher
(api_callers.py `OpenTargetsAPI.get_disease_targets`, lines 1238-1337)

The association service is modelled as the sequence of row pages it
returns (every request is answered, so the retry loop always succeeds on
its first attempt) together with the `count` it reports.  Association
scores and the score threshold are modelled as rationals.  The
`while len(all_targets) < max_targets` loop is modelled with explicit
fuel: a `none` result means the loop is still running after `fuel`
iterations. -/

/-- One row of the associatedTargets response. -/
structure OTRow where
  approvedSymbol : String
  score : ℚ
deriving DecidableEq

/-- The association service: rows per page index, and the reported total
count of associations. -/
structure OTService where
  rows : Nat → List OTRow
  count : Nat

/-- api_callers.py line 1263: `page_size = 100`. -/
def page_size : Nat := 100

/-- The while-loop of `get_disease_targets` (lines 1266-1329) on the
success path.  One step is one iteration: the current page is requested,
rows passing the score filter are appended, and then the
`if len(rows) < page_size or len(all_targets) >= total_count: break`
only exits the inner retry loop, so the while loop re-enters with the
page index unchanged; only the explicit `current_page += 1` advances the
page.  The loop exits (returning the accumulated list) only when
`len(all_targets) < max_targets` fails. -/
def fetchLoop (svc : OTService) (score_threshold : ℚ) (max_targets : Nat) :
    Nat → List String → Nat → Option (List String)
  | 0, _, _ => none
  | fuel + 1, all_targets, current_page =>
    if all_targets.length < max_targets then
      let rows := svc.rows current_page
      let passed := (rows.filter
        (fun r => score_threshold ≤ r.score)).map OTRow.approvedSymbol
      let all_targets2 := all_targets ++ passed
      if rows.length < page_size ∨ svc.count ≤ all_targets2.length then
        fetchLoop svc score_threshold max_targets fuel all_targets2 current_page
      else
        fetchLoop svc score_threshold max_targets fuel all_targets2
          (current_page + 1)
    else
      some all_targets

/-- api_callers.py line 1253: the data the cache key
`ot_disease_targets_{efo_id}_score{score_threshold}` is built from — the
EFO id and the score threshold only. -/
def ot_cache_key (efo_id : String) (score_threshold : ℚ) : String × ℚ :=
  (efo_id, score_threshold)

/-- api_callers.py lines 1262-1337, fetch path: run the pagination loop,
truncate the accumulated list to `max_targets` (line 1331), store the
truncated result under the key, and return it. -/
def fetch_and_cache (svc : OTService)
    (cache : List ((String × ℚ) × List String)) (efo_id : String)
    (max_targets : Nat) (score_threshold : ℚ) (fuel : Nat) :
    Option (List String × List ((String × ℚ) × List String)) :=
  match fetchLoop svc score_threshold max_targets fuel [] 0 with
  | none => none
  | some all_targets =>
    some (all_targets.take max_targets,
      (ot_cache_key efo_id score_threshold, all_targets.take max_targets) ::
        cache)

/-- api_callers.py `get_disease_targets` (lines 1238-1337): a cached entry
is served truncated to `max_targets` when present and truthy (a non-empty
list); a missing or empty entry falls through to the paginated fetch. -/
def get_disease_targets (svc : OTService)
    (cache : List ((String × ℚ) × List String)) (efo_id : String)
    (max_targets : Nat) (score_threshold : ℚ) (fuel : Nat) :
    Option (List String × List ((String × ℚ) × List String)) :=
  match memoLookup cache (ot_cache_key efo_id score_threshold) with
  | some cached_result =>
    if cached_result.isEmpty then
      fetch_and_cache svc cache efo_id max_targets score_threshold fuel
    else some (cached_result.take max_targets, cache)
  | none => fetch_and_cache svc cache efo_id max_targets score_threshold fuel

/-- A service with one page of two qualifying rows. -/
def svcTwo : OTService :=
  ⟨fun i => if i = 0 then [⟨"G1", 1⟩, ⟨"G2", 1⟩] else [], 2⟩

/-- A service with one short page holding a single qualifying row. -/
def svcOne : OTService := ⟨fun i => if i = 0 then [⟨"G", 1⟩] else [], 1⟩

/-- A service reporting no associations at all: every page is empty. -/
def svcEmpty : OTService := ⟨fun _ => [], 0⟩

/-! ## Hallmark Classifier cache validation
(pathway_agent.py `PathwayAnalysisAgent.analyze_pathway`, lines 221-242
and 314-355)

Cached JSON values are dynamically typed; the subset of shapes relevant to
the validation check is modelled by `PyVal`.  Successful recomputation
(metadata lookup, oracle call, JSON parsing and string filtering, lines
244-333) is abstracted as the `oracle` function, which yields the already
string-filtered hallmark list.  Python attribute lookup on the `Cache`
instance succeeds only for methods the `Cache` class defines
(`cache_methods` lists the method names of cache.py); calling a missing
attribute raises `AttributeError`, modelled as `Except.error`. -/

/-- Dynamically typed cached values. -/
inductive PyVal where
  | pystr : String → PyVal
  | pyint : Int → PyVal
  | pylist : List PyVal → PyVal

/-- The isinstance check for a string item. -/
def isStr : PyVal → Bool
  | .pystr _ => true
  | _ => false

/-- pathway_agent.py line 237: `isinstance(cached_result, list) and
all(isinstance(item, str) for item in cached_result)`. -/
def isListOfStrings : PyVal → Bool
  | .pylist items => items.all isStr
  | _ => false

/-- The string payload of a well-formed cached value. -/
def asStrings : PyVal → List String
  | .pylist items => items.filterMap (fun v =>
      match v with
      | .pystr s => some s
      | _ => none)
  | _ => []

/-- The method names the `Cache` class of cache.py defines. -/
def cache_methods : List String :=
  ["get", "set", "get_or_fetch", "analyze_cache", "print_analysis",
   "preload_cache", "list_cache_items", "clear_expired", "get_cache_type",
   "is_related_to_disease", "list_cache_by_type", "list_disease_cache",
   "clear_cache_by_type", "clear_disease_cache"]

/-- pathway_agent.py `analyze_pathway` (lines 221-242, with the
recomputation of lines 244-333 abstracted as `oracle`): a well-formed
cached list of strings is returned directly; a present but malformed entry
reaches `self.cache.delete(cache_key)` followed by `return []`, which only
runs if the `Cache` class has a `delete` method and otherwise raises
`AttributeError`; a cache miss recomputes via the oracle and stores the
result. -/
def analyze_pathway (oracle : String → List String)
    (cache : List (String × PyVal)) (pathway : String) :
    Except String (List String × List (String × PyVal)) :=
  let cache_key := "gpt4_pathway_analysis_" ++ pathway
  match memoLookup cache cache_key with
  | some cached_result =>
    if isListOfStrings cached_result then .ok (asStrings cached_result, cache)
    else if "delete" ∈ cache_methods then
      .ok ([], cache.filter (fun e => e.1 ≠ cache_key))
    else .error "AttributeError"
  | none =>
    let hallmarks := oracle pathway
    .ok (hallmarks, (cache_key, .pylist (hallmarks.map .pystr)) :: cache)

/-! ## Enrichr registration cache key
(api_callers.py `EnrichrCaller.add_list`, lines 34-59) -/

/-- api_callers.py line 37: the newline-join of the gene list in input
order (the semantics of the Python join of gene_list with a newline
separator). -/
def genesStr : List String → String
  | [] => ""
  | [g] => g
  | g :: rest => g ++ "\n" ++ genesStr rest

/-- api_callers.py line 46: the data determining the add_list cache key
`enrichr_add_list_{md5(genes_str)}_{desc}` — md5 is a fixed deterministic
function of `genes_str`, so the key is a function of this pair. -/
def addListKeyData (gene_list : List String) (desc : String) :
    String × String :=
  (genesStr gene_list, desc)

end DiseaseHallmarks

namespace DiseaseHallmarks

theorem memoLookup_head {κ ρ : Type} [DecidableEq κ] (k : κ) (r : ρ)
    (rest : List (κ × ρ)) : memoLookup ((k, r) :: rest) k = some r := by
  simp [memoLookup]

theorem memoLookup_filter {κ ρ : Type} [DecidableEq κ] (p : κ × ρ → Bool)
    (l : List (κ × ρ)) (k : κ) (r : ρ) (hl : memoLookup l k = some r)
    (hp : p (k, r) = true) : memoLookup (l.filter p) k = some r := by
  induction l with
  | nil => simp [memoLookup] at hl
  | cons a l ih =>
    obtain ⟨a1, a2⟩ := a
    by_cases hak : a1 = k
    · subst hak
      have hr : a2 = r := by simpa [memoLookup] using hl
      subst hr
      simp only [List.filter_cons, hp, if_true]
      simp [memoLookup]
    · have hl2 : memoLookup l k = some r := by
        simpa [memoLookup, hak] using hl
      simp only [List.filter_cons]
      by_cases hpa : p (a1, a2) = true
      · simp only [hpa, if_true]
        simpa [memoLookup, hak] using ih hl2
      · simp only [Bool.not_eq_true] at hpa
        simp only [hpa, Bool.false_eq_true, if_false]
        exact ih hl2

theorem memoLookup_map {κ ρ σ : Type} [DecidableEq κ] (f : ρ → σ)
    (l : List (κ × ρ)) (k : κ) :
    memoLookup (l.map (fun e => (e.1, f e.2))) k =
      (memoLookup l k).map f := by
  induction l with
  | nil => rfl
  | cons a l ih =>
    by_cases hak : a.1 = k
    · simp [memoLookup, hak]
    · simp [memoLookup, hak, ih]

theorem cache_get_no_memory {V : Type} (c : CacheState V) (now : Int)
    (key : String) (hmem : c.memory = none) :
    Cache.get c now key = Cache.get_file_cache c now key := by
  unfold Cache.get Cache.memoryLookup
  rw [hmem]

/-- C9 counterexample: with ttl 10, an entry written at time 0 and
preloaded while fresh at time 5 is still served at time 100, although its
age has long reached the ttl; without the preload the same read returns
nothing. -/
theorem cache_get_ttl_counterexample :
    Cache.get (Cache.preload_cache
      (⟨10, [("k", ⟨0, (42 : Nat)⟩)], none⟩ : CacheState Nat) 5) 100 "k" =
      some 42 ∧
    ¬ ((100 : Int) - 0 < 10) ∧
    Cache.get (⟨10, [("k", ⟨0, (42 : Nat)⟩)], none⟩ : CacheState Nat)
      100 "k" = none := by
  refine ⟨rfl, by decide, rfl⟩

/-- C9 (amended): while no in-memory cache is present, `Cache.get` returns
the stored value exactly when `now - timestamp < ttl` and nothing once
`now - timestamp ≥ ttl`, and under the infinite sentinel `-1` it is
returned regardless of age (a value written at T0 is still returned at
T0 + 10 t); but once `preload_cache` has populated the in-memory cache,
`get` serves a preloaded entry with no expiry re-check, so an entry that
was fresh at preload time is still returned after its age reaches the
ttl. -/
theorem cache_get_ttl_semantics {V : Type} (c : CacheState V) (now : Int)
    (key : String) :
    (c.memory = none → c.ttl ≠ Cache.INFINITE_TTL →
      Cache.get c now key =
        (memoLookup c.store key).bind
          (fun e => if now - e.timestamp < c.ttl then some e.value else none)) ∧
    (c.memory = none → c.ttl = Cache.INFINITE_TTL →
      Cache.get c now key = (memoLookup c.store key).map (fun e => e.value)) ∧
    (∀ (v : V) (T0 t : Int),
      Cache.get (Cache.set
        { ttl := Cache.INFINITE_TTL, store := c.store, memory := none }
        T0 key v) (T0 + 10 * t) key = some v) ∧
    (∀ (mem : List (String × V)) (v : V), c.memory = some mem →
      memoLookup mem key = some v → Cache.get c now key = some v) ∧
    (∀ (e : CacheEntry V) (pnow : Int), memoLookup c.store key = some e →
      (c.ttl = Cache.INFINITE_TTL ∨ pnow - e.timestamp < c.ttl) →
      Cache.get (Cache.preload_cache c pnow) now key = some e.value) := by
  refine ⟨fun hmem hne => ?_, fun hmem hinf => ?_, fun v T0 t => ?_,
    fun mem v hmem hv => ?_, fun e pnow hl hfresh => ?_⟩
  · rw [cache_get_no_memory c now key hmem]
    unfold Cache.get_file_cache
    cases memoLookup c.store key with
    | none => rfl
    | some e => simp [hne]
  · rw [cache_get_no_memory c now key hmem]
    unfold Cache.get_file_cache
    cases memoLookup c.store key with
    | none => rfl
    | some e => simp [hinf]
  · rw [cache_get_no_memory _ _ _ rfl]
    unfold Cache.get_file_cache Cache.set
    simp [memoLookup_head, Cache.INFINITE_TTL]
  · unfold Cache.get Cache.memoryLookup
    rw [hmem]
    simp [hv]
  · have hp : (fun e : String × CacheEntry V =>
        if c.ttl = Cache.INFINITE_TTL then true
        else decide (pnow - e.2.timestamp < c.ttl)) (key, e) = true := by
      by_cases httl : c.ttl = Cache.INFINITE_TTL
      · simp [httl]
      · rcases hfresh with h | h
        · exact absurd h httl
        · simp [httl, h]
    have hmemL : Cache.memoryLookup (Cache.preload_cache c pnow) key =
        some e.value := by
      show memoLookup ((c.store.filter (fun e =>
          if c.ttl = Cache.INFINITE_TTL then true
          else decide (pnow - e.2.timestamp < c.ttl))).map
            (fun e => (e.1, e.2.value))) key = some e.value
      rw [memoLookup_map, memoLookup_filter _ _ _ _ hl hp]
      rfl
    unfold Cache.get
    rw [hmemL]

/-- The factor argument `log2(count + 1) + 1` is at least 1 for every count. -/
theorem one_le_logb_arg (c : Nat) : 1 ≤ Real.logb 2 ((c : ℝ) + 1) + 1 := by
  have h0 : (0 : ℝ) ≤ Real.logb 2 ((c : ℝ) + 1) := by
    apply Real.logb_nonneg (by norm_num)
    have : (0 : ℝ) ≤ (c : ℝ) := Nat.cast_nonneg c
    linarith
  linarith

theorem get_normalization_factor_absent (t : List (String × Nat)) (h : String)
    (hl : memoLookup t h = none) : get_normalization_factor t h = 1 := by
  unfold get_normalization_factor
  cases t with
  | nil => norm_num
  | cons a l =>
    simp only [List.isEmpty_cons, if_false, Bool.false_eq_true, hl]
    norm_num

theorem get_normalization_factor_zero (t : List (String × Nat)) (h : String)
    (hl : memoLookup t h = some 0) : get_normalization_factor t h = 1 := by
  unfold get_normalization_factor
  cases t with
  | nil => simp [memoLookup] at hl
  | cons a l =>
    simp only [List.isEmpty_cons, if_false, Bool.false_eq_true, hl]
    norm_num

theorem get_normalization_factor_formula (t : List (String × Nat)) (h : String)
    (c : Nat) (hc : 0 < c) (hl : memoLookup t h = some c) :
    get_normalization_factor t h =
      1 / Real.sqrt (Real.logb 2 ((c : ℝ) + 1) + 1) := by
  unfold get_normalization_factor
  cases t with
  | nil => simp [memoLookup] at hl
  | cons a l =>
    simp only [List.isEmpty_cons, if_false, Bool.false_eq_true, hl]
    rw [if_neg (by omega)]
    norm_num

theorem get_normalization_factor_pos_le_one (t : List (String × Nat))
    (h : String) :
    0 < get_normalization_factor t h ∧ get_normalization_factor t h ≤ 1 := by
  cases hl : memoLookup t h with
  | none =>
    rw [get_normalization_factor_absent t h hl]
    norm_num
  | some c =>
    cases Nat.eq_zero_or_pos c with
    | inl h0 =>
      subst h0
      rw [get_normalization_factor_zero t h hl]
      norm_num
    | inr hc =>
      rw [get_normalization_factor_formula t h c hc hl]
      have harg := one_le_logb_arg c
      have hs1 : 1 ≤ Real.sqrt (Real.logb 2 ((c : ℝ) + 1) + 1) := by
        rw [show (1 : ℝ) = Real.sqrt 1 from (Real.sqrt_one).symm]
        exact Real.sqrt_le_sqrt (by simpa using harg)
      have hspos : 0 < Real.sqrt (Real.logb 2 ((c : ℝ) + 1) + 1) :=
        lt_of_lt_of_le one_pos hs1
      constructor
      · exact div_pos one_pos hspos
      · rw [div_le_one hspos]
        exact hs1

theorem get_normalization_factor_antitone (t1 t2 : List (String × Nat))
    (h1 h2 : String) (c1 c2 : Nat) (hc1 : 0 < c1) (hlt : c1 < c2)
    (hl1 : memoLookup t1 h1 = some c1) (hl2 : memoLookup t2 h2 = some c2) :
    get_normalization_factor t2 h2 ≤ get_normalization_factor t1 h1 := by
  rw [get_normalization_factor_formula t1 h1 c1 hc1 hl1,
    get_normalization_factor_formula t2 h2 c2 (Nat.lt_of_lt_of_le hc1 hlt.le) hl2]
  have harg1 := one_le_logb_arg c1
  have hle : Real.logb 2 ((c1 : ℝ) + 1) + 1 ≤ Real.logb 2 ((c2 : ℝ) + 1) + 1 := by
    have hmono : Real.logb 2 ((c1 : ℝ) + 1) ≤ Real.logb 2 ((c2 : ℝ) + 1) := by
      have h0 : (0 : ℝ) < (c1 : ℝ) + 1 := by
        have : (0 : ℝ) ≤ (c1 : ℝ) := Nat.cast_nonneg c1
        linarith
      have hcast : ((c1 : ℝ) + 1) ≤ ((c2 : ℝ) + 1) := by
        have : (c1 : ℝ) ≤ (c2 : ℝ) := by exact_mod_cast hlt.le
        linarith
      exact Real.logb_le_logb_of_le (by norm_num) h0 hcast
    linarith
  have hs1 : 1 ≤ Real.sqrt (Real.logb 2 ((c1 : ℝ) + 1) + 1) := by
    rw [show (1 : ℝ) = Real.sqrt 1 from (Real.sqrt_one).symm]
    exact Real.sqrt_le_sqrt (by simpa using harg1)
  exact one_div_le_one_div_of_le (lt_of_lt_of_le one_pos hs1)
    (Real.sqrt_le_sqrt hle)

/-- C7: `get_normalization_factor` returns 1.0 for a hallmark absent from the
count table or with zero count, and otherwise `1 / sqrt(log2(count + 1) + 1)`;
the returned value always lies in (0, 1], and for two positive counts
c1 < c2 the factor at c1 is at least the factor at c2. -/
theorem normalization_factor_spec (t : List (String × Nat)) (h : String) :
    (memoLookup t h = none → get_normalization_factor t h = 1) ∧
    (memoLookup t h = some 0 → get_normalization_factor t h = 1) ∧
    (∀ c : Nat, 0 < c → memoLookup t h = some c →
      get_normalization_factor t h =
        1 / Real.sqrt (Real.logb 2 ((c : ℝ) + 1) + 1)) ∧
    (0 < get_normalization_factor t h ∧ get_normalization_factor t h ≤ 1) ∧
    (∀ (t2 : List (String × Nat)) (h2 : String) (c1 c2 : Nat),
      memoLookup t h = some c1 → memoLookup t2 h2 = some c2 →
      0 < c1 → c1 < c2 →
      get_normalization_factor t2 h2 ≤ get_normalization_factor t h) :=
  ⟨get_normalization_factor_absent t h,
   get_normalization_factor_zero t h,
   fun c hc hl => get_normalization_factor_formula t h c hc hl,
   get_normalization_factor_pos_le_one t h,
   fun t2 h2 c1 c2 hl1 hl2 hc1 hlt =>
     get_normalization_factor_antitone t t2 h h2 c1 c2 hc1 hlt hl1 hl2⟩

/-- Witness for C7 on the concrete table A ↦ 1, B ↦ 3: the factor at A has
the stated closed form, lies in (0, 1], and dominates the factor at B. -/
theorem normalization_factor_spec_witness :
    get_normalization_factor [("A", 1), ("B", 3)] "A" =
      1 / Real.sqrt (Real.logb 2 ((1 : ℝ) + 1) + 1) ∧
    (0 < get_normalization_factor [("A", 1), ("B", 3)] "A" ∧
      get_normalization_factor [("A", 1), ("B", 3)] "A" ≤ 1) ∧
    get_normalization_factor [("A", 1), ("B", 3)] "B" ≤
      get_normalization_factor [("A", 1), ("B", 3)] "A" := by
  have hspec := normalization_factor_spec [("A", 1), ("B", 3)] "A"
  refine ⟨?_, hspec.2.2.2.1, ?_⟩
  · have := hspec.2.2.1 1 (by decide) (by decide)
    simpa using this
  · exact hspec.2.2.2.2 [("A", 1), ("B", 3)] "B" 1 3 (by decide) (by decide)
      (by decide) (by decide)

theorem scoreHallmark_gene_overlap_score (t : List (String × Nat))
    (classify : String → List String) (disease_genes : List String)
    (hallmark agent : String) (gset : Finset String)
    (enriched : List (String × ℝ)) :
    (scoreHallmark t classify disease_genes hallmark agent gset
        enriched).gene_overlap_score =
      if gset.Nonempty then
        (((disease_genes.toFinset ∩ gset).card : ℝ) / (gset.card : ℝ))
      else 0 := rfl

theorem scoreHallmark_pathway_score (t : List (String × Nat))
    (classify : String → List String) (disease_genes : List String)
    (hallmark agent : String) (gset : Finset String)
    (enriched : List (String × ℝ)) :
    (scoreHallmark t classify disease_genes hallmark agent gset
        enriched).pathway_score =
      pathway_score_calc (get_normalization_factor t hallmark)
        (pathway_weight_sum classify agent enriched)
        (pathway_count classify agent enriched) := rfl

theorem scoreHallmark_total_score (t : List (String × Nat))
    (classify : String → List String) (disease_genes : List String)
    (hallmark agent : String) (gset : Finset String)
    (enriched : List (String × ℝ)) :
    (scoreHallmark t classify disease_genes hallmark agent gset
        enriched).total_score =
      ((scoreHallmark t classify disease_genes hallmark agent gset
          enriched).gene_overlap_score * 0.3 +
        (scoreHallmark t classify disease_genes hallmark agent gset
          enriched).pathway_score * 0.7) *
        min (Real.sqrt ((pathway_count classify agent enriched : ℝ) + 1) /
          Real.sqrt 10) 1.5 := rfl

/-- C1: for every hallmark scored in one pass, the final per-hallmark
total_score equals (0.3 × gene_overlap_score + 0.7 × pathway_score)
multiplied by min(sqrt(pathway_count + 1) / sqrt(10), 1.5), where
pathway_count is the number of enriched pathways classified to the
hallmark; the diversity multiplier never exceeds 1.5. -/
theorem hallmark_total_score_spec (t : List (String × Nat))
    (classify : String → List String) (disease_genes : List String)
    (hallmark agent : String) (gset : Finset String)
    (enriched : List (String × ℝ)) :
    (scoreHallmark t classify disease_genes hallmark agent gset
        enriched).total_score =
      (0.3 * (scoreHallmark t classify disease_genes hallmark agent gset
          enriched).gene_overlap_score +
        0.7 * (scoreHallmark t classify disease_genes hallmark agent gset
          enriched).pathway_score) *
        min (Real.sqrt ((pathway_count classify agent enriched : ℝ) + 1) /
          Real.sqrt 10) 1.5 ∧
    min (Real.sqrt ((pathway_count classify agent enriched : ℝ) + 1) /
      Real.sqrt 10) 1.5 ≤ 1.5 := by
  constructor
  · rw [scoreHallmark_total_score]
    ring
  · exact min_le_right _ _

/-- C2: the per-hallmark pathway score is 0 when no enriched pathway is
classified to the hallmark; otherwise it is the mean contributed weight
(each weight `-log10(p)`, 0 for p ≤ 0) times `max(normalization_factor, 0.5)`
times the bonus `1 + min(log2(pathway_count + 1) / 4, 1)`, and the bonus
factor never exceeds 2. -/
theorem hallmark_pathway_score_spec (t : List (String × Nat))
    (classify : String → List String) (disease_genes : List String)
    (hallmark agent : String) (gset : Finset String)
    (enriched : List (String × ℝ)) :
    (pathway_count classify agent enriched = 0 →
      (scoreHallmark t classify disease_genes hallmark agent gset
        enriched).pathway_score = 0) ∧
    (0 < pathway_count classify agent enriched →
      (scoreHallmark t classify disease_genes hallmark agent gset
          enriched).pathway_score =
        (pathway_weight_sum classify agent enriched /
            (pathway_count classify agent enriched : ℝ)) *
          max (get_normalization_factor t hallmark) 0.5 *
          (1 + min (Real.logb 2
            ((pathway_count classify agent enriched : ℝ) + 1) / 4) 1)) ∧
    (∀ p : ℝ, p ≤ 0 → pathwayWeight p = 0) ∧
    (1 + min (Real.logb 2
      ((pathway_count classify agent enriched : ℝ) + 1) / 4) 1 ≤ 2) := by
  refine ⟨fun h0 => ?_, fun hpos => ?_, fun p hp => ?_, ?_⟩
  · rw [scoreHallmark_pathway_score]
    unfold pathway_score_calc
    rw [if_neg (by omega)]
  · rw [scoreHallmark_pathway_score]
    unfold pathway_score_calc
    rw [if_pos hpos]
    norm_num
  · unfold pathwayWeight
    rw [if_neg (not_lt.mpr hp)]
  · have hmin := min_le_right
      (Real.logb 2 ((pathway_count classify agent enriched : ℝ) + 1) / 4) (1 : ℝ)
    linarith

/-- C8: the Scorer memoizes on the key built from the sorted gene list and
the sorted pathway-p-value pairs: a second call with identical inputs
returns the identical stored result and leaves the memo unchanged,
independently of the compute body supplied to the second call (so nothing
is recomputed). -/
theorem calculate_hallmark_scores_memoizes {R : Type}
    (compute compute2 : List String → List (String × ℚ) → R)
    (memo : List ((List String × List (String × ℚ)) × R))
    (disease_genes : List String) (enriched_pathways : List (String × ℚ)) :
    calculate_hallmark_scores compute2
        (calculate_hallmark_scores compute memo disease_genes
          enriched_pathways).2
        disease_genes enriched_pathways =
      calculate_hallmark_scores compute memo disease_genes
        enriched_pathways := by
  unfold calculate_hallmark_scores
  cases hl : memoLookup memo (scorerKey disease_genes enriched_pathways) with
  | some r => simp [hl]
  | none => simp [hl, memoLookup_head]

/-- Witness for C2 on one enriched pathway classified to the hallmark:
the positive-count branch of the formula holds concretely and the weight
guard sends a non-positive p-value to 0. -/
theorem hallmark_pathway_score_spec_witness :
    0 < pathway_count (fun _ => ["H"]) "H" [("pw", (1 : ℝ) / 10)] ∧
    (scoreHallmark [] (fun _ => ["H"]) [] "Hm" "H" ∅
        [("pw", (1 : ℝ) / 10)]).pathway_score =
      (pathway_weight_sum (fun _ => ["H"]) "H" [("pw", (1 : ℝ) / 10)] /
          (pathway_count (fun _ => ["H"]) "H" [("pw", (1 : ℝ) / 10)] : ℝ)) *
        max (get_normalization_factor [] "Hm") 0.5 *
        (1 + min (Real.logb 2
          ((pathway_count (fun _ => ["H"]) "H" [("pw", (1 : ℝ) / 10)] : ℝ) + 1) / 4) 1) ∧
    pathwayWeight (-(1 : ℝ)) = 0 := by
  have hpc : 0 < pathway_count (fun _ => ["H"]) "H" [("pw", (1 : ℝ) / 10)] := by
    simp [pathway_count, contributing]
  have hspec := hallmark_pathway_score_spec [] (fun _ => ["H"]) [] "Hm" "H" ∅
    [("pw", (1 : ℝ) / 10)]
  exact ⟨hpc, hspec.2.1 hpc, hspec.2.2.1 (-(1 : ℝ)) (by norm_num)⟩

/-- C3: contrary to the claim, a malformed cached classification entry is
not purged and recomputed: the Cache class defines no delete method, so the
purge call raises AttributeError, which propagates to the caller (and even
with a delete method the branch returns the empty list without
recomputing); only a genuinely absent entry recomputes via the oracle and
stores the result. -/
theorem classifier_invalid_cache_entry_bug :
    "delete" ∉ cache_methods ∧
    analyze_pathway (fun _ => ["Cellular_senescence"])
      [("gpt4_pathway_analysis_P", .pyint 42)] "P" =
        .error "AttributeError" ∧
    analyze_pathway (fun _ => ["Cellular_senescence"]) [] "P" =
      .ok (["Cellular_senescence"],
        [("gpt4_pathway_analysis_P",
          .pylist [.pystr "Cellular_senescence"])]) := by
  refine ⟨by decide, rfl, rfl⟩

/-- C4 counterexample: two gene lists that are permutations of each other
for which the registration step builds its cache key from different
content, so they do not share a step-1 cache entry. -/
theorem add_list_key_order_counterexample :
    (["A", "B"] : List String).Perm ["B", "A"] ∧
    addListKeyData ["A", "B"] "NA" ≠ addListKeyData ["B", "A"] "NA" := by
  exact ⟨by decide, by decide⟩

theorem genesStr_data_cons_cons (x y : String) (rest : List String) :
    (genesStr (x :: y :: rest)).data =
      x.data ++ '\n' :: (genesStr (y :: rest)).data := by
  show ((x ++ "\n") ++ genesStr (y :: rest)).data = _
  rw [String.data_append, String.data_append, List.append_assoc]
  rfl

theorem takeWhile_append_cons {α : Type} (p : α → Bool) (l t : List α)
    (x : α) (h1 : ∀ c ∈ l, p c = true) (hx : p x = false) :
    (l ++ x :: t).takeWhile p = l := by
  induction l with
  | nil => simp [List.takeWhile_cons, hx]
  | cons c cs ih =>
    simp only [List.cons_append, List.takeWhile_cons,
      h1 c (List.mem_cons_self c cs), if_true]
    rw [ih (fun d hd => h1 d (List.mem_cons_of_mem c hd))]

/-- C4 (amended): the step-1 registration cache key is built from the
newline-join of the gene list in input order plus the description, so it is
order sensitive: swapping two distinct newline-free genes at the head of
the list changes the key content, and permuted lists in general do not
share a cache entry. -/
theorem add_list_key_order_sensitive (a b : String) (rest : List String)
    (desc : String) (ha : '\n' ∉ a.data) (hb : '\n' ∉ b.data)
    (hne : a ≠ b) :
    addListKeyData (a :: b :: rest) desc ≠
      addListKeyData (b :: a :: rest) desc := by
  intro heq
  apply hne
  have hdata : (genesStr (a :: b :: rest)).data =
      (genesStr (b :: a :: rest)).data :=
    congrArg String.data (congrArg Prod.fst heq)
  rw [genesStr_data_cons_cons, genesStr_data_cons_cons] at hdata
  have hta : (a.data ++ '\n' :: (genesStr (b :: rest)).data).takeWhile
      (fun c => !(c = '\n' : Bool)) = a.data := by
    apply takeWhile_append_cons
    · intro c hc
      simp only [Bool.not_eq_true', decide_eq_false_iff_not]
      exact fun h => ha (h ▸ hc)
    · simp
  have htb : (b.data ++ '\n' :: (genesStr (a :: rest)).data).takeWhile
      (fun c => !(c = '\n' : Bool)) = b.data := by
    apply takeWhile_append_cons
    · intro c hc
      simp only [Bool.not_eq_true', decide_eq_false_iff_not]
      exact fun h => hb (h ▸ hc)
    · simp
  have hab : a.data = b.data := by
    rw [← hta, ← htb, hdata]
  cases a
  cases b
  exact congrArg String.mk hab

/-- Witness for the amended C4: swapping the distinct newline-free genes X
and Y changes the registration key content. -/
theorem add_list_key_order_sensitive_witness :
    '\n' ∉ ("X" : String).data ∧ '\n' ∉ ("Y" : String).data ∧
    ("X" : String) ≠ "Y" ∧
    addListKeyData ["X", "Y"] "D" ≠ addListKeyData ["Y", "X"] "D" :=
  ⟨by decide, by decide, by decide,
   add_list_key_order_sensitive "X" "Y" [] "D" (by decide) (by decide)
     (by decide)⟩

/-- C5 counterexample: after a call with max_targets 1 the cache holds the
truncated list, so a later call with max_targets 2 for the same (id,
threshold) is served the one-element stored list instead of the longer
prefix the direct fetch with max_targets 2 would produce. -/
theorem ot_cache_truncation_counterexample :
    get_disease_targets svcTwo [] "EFO" 1 0 5 =
      some (["G1"], [(("EFO", 0), ["G1"])]) ∧
    get_disease_targets svcTwo [(("EFO", 0), ["G1"])] "EFO" 2 0 5 =
      some (["G1"], [(("EFO", 0), ["G1"])]) ∧
    (fetchLoop svcTwo 0 2 5 [] 0).map (fun l => l.take 2) =
      some ["G1", "G2"] ∧
    (["G1"] : List String) ≠ ["G1", "G2"] := by
  refine ⟨rfl, rfl, rfl, by decide⟩

/-- C5 (amended): the cache key of `get_disease_targets` depends only on
the EFO id and score threshold, but the stored value is the fetched list
already truncated to the writing call's max_targets; a later call finding
a non-empty entry is served that stored list truncated to its own
max_targets, never a longer prefix of the maximal associated set. -/
theorem ot_cache_write_truncation (svc : OTService)
    (cache : List ((String × ℚ) × List String)) (efo_id : String)
    (max_targets : Nat) (score_threshold : ℚ) (fuel : Nat) :
    (memoLookup cache (ot_cache_key efo_id score_threshold) = none →
      ∀ all_targets, fetchLoop svc score_threshold max_targets fuel [] 0 =
          some all_targets →
        get_disease_targets svc cache efo_id max_targets score_threshold
            fuel =
          some (all_targets.take max_targets,
            (ot_cache_key efo_id score_threshold,
              all_targets.take max_targets) :: cache)) ∧
    (∀ cached, memoLookup cache (ot_cache_key efo_id score_threshold) =
        some cached → cached ≠ [] →
      get_disease_targets svc cache efo_id max_targets score_threshold
          fuel =
        some (cached.take max_targets, cache)) := by
  constructor
  · intro hl all_targets hf
    unfold get_disease_targets
    rw [hl]
    unfold fetch_and_cache
    rw [hf]
  · intro cached hl hne
    unfold get_disease_targets
    rw [hl]
    cases cached with
    | nil => exact absurd rfl hne
    | cons x xs => simp

/-- Witness for the amended C5: on the two-row service, a fresh cache miss
with max_targets 1 stores and returns the one-element truncation, and the
follow-up call finding that non-empty entry returns it truncated again. -/
theorem ot_cache_write_truncation_witness :
    memoLookup ([] : List ((String × ℚ) × List String)) (ot_cache_key "EFO" 0) =
      none ∧
    fetchLoop svcTwo 0 1 5 [] 0 = some ["G1", "G2"] ∧
    get_disease_targets svcTwo [] "EFO" 1 0 5 =
      some (["G1", "G2"].take 1,
        (ot_cache_key "EFO" 0, ["G1", "G2"].take 1) :: []) ∧
    (["G1"] : List String) ≠ [] ∧
    get_disease_targets svcTwo [(ot_cache_key "EFO" 0, ["G1"])] "EFO" 2 0 5 =
      some ((["G1"] : List String).take 2, [(ot_cache_key "EFO" 0, ["G1"])]) := by
  refine ⟨rfl, rfl, ?_, by decide, ?_⟩
  · exact (ot_cache_write_truncation svcTwo [] "EFO" 1 0 5).1 rfl
      ["G1", "G2"] rfl
  · exact (ot_cache_write_truncation svcTwo [(ot_cache_key "EFO" 0, ["G1"])]
      "EFO" 2 0 5).2 ["G1"] rfl (by decide)

/-- C6: contrary to the specified pagination contract, the final-page break
only exits the retry loop, so the while loop re-requests the same page:
with one short page of a single qualifying row and max_targets 3 the row is
appended three times, and with a service reporting no rows at all the loop
never terminates (for every fuel bound the loop is still running, at the
loop level and at the `get_disease_targets` level). -/
theorem ot_pagination_loop_bug :
    fetchLoop svcOne 0 3 10 [] 0 = some ["G", "G", "G"] ∧
    (∀ fuel, fetchLoop svcEmpty 0 1 fuel [] 0 = none) ∧
    (∀ fuel, get_disease_targets svcEmpty [] "EFO" 1 0 fuel = none) := by
  have hloop : ∀ fuel, fetchLoop svcEmpty 0 1 fuel [] 0 = none := by
    intro fuel
    induction fuel with
    | zero => rfl
    | succ n ih => simpa [fetchLoop, svcEmpty, page_size] using ih
  refine ⟨rfl, hloop, fun fuel => ?_⟩
  unfold get_disease_targets
  simp only [memoLookup]
  unfold fetch_and_cache
  rw [hloop fuel]

/-- C10: a cached empty gene list is tested for truthiness, not presence:
`get_disease_targets` treats it as a cache miss and re-runs the full
paginated fetch path. -/
theorem ot_empty_cached_value_refetches (svc : OTService)
    (cache : List ((String × ℚ) × List String)) (efo_id : String)
    (max_targets : Nat) (score_threshold : ℚ) (fuel : Nat)
    (h : memoLookup cache (ot_cache_key efo_id score_threshold) = some []) :
    get_disease_targets svc cache efo_id max_targets score_threshold fuel =
      fetch_and_cache svc cache efo_id max_targets score_threshold fuel := by
  unfold get_disease_targets
  rw [h]
  rfl

/-- Witness for C10: with a stored empty list for the key, the two-row
service is queried again and the non-empty fetched result is returned, so
the empty cached value is not served. -/
theorem ot_empty_cached_value_refetches_witness :
    memoLookup [(ot_cache_key "EFO" 0, ([] : List String))]
      (ot_cache_key "EFO" 0) = some [] ∧
    get_disease_targets svcTwo [(ot_cache_key "EFO" 0, [])] "EFO" 2 0 5 =
      fetch_and_cache svcTwo [(ot_cache_key "EFO" 0, [])] "EFO" 2 0 5 ∧
    fetch_and_cache svcTwo [(ot_cache_key "EFO" 0, [])] "EFO" 2 0 5 =
      some (["G1", "G2"],
        [(ot_cache_key "EFO" 0, ["G1", "G2"]), (ot_cache_key "EFO" 0, [])]) := by
  refine ⟨rfl, ?_, rfl⟩
  exact ot_empty_cached_value_refetches svcTwo [(ot_cache_key "EFO" 0, [])]
    "EFO" 2 0 5 rfl

/-- Witness for the amended C9 at concrete caches: ttl 86400, an entry
written at time 0 is served at age 100 and refused at age 86400 on the
file path; under the infinite sentinel a written value survives ten
normal ttls; a preloaded in-memory entry is served as is; and an entry
that was fresh at preload time 5 is still served at age 100000. -/
theorem cache_get_ttl_semantics_witness :
    Cache.get (⟨86400, [("k", ⟨0, (42 : Nat)⟩)], none⟩ : CacheState Nat)
      100 "k" = some 42 ∧
    Cache.get (⟨86400, [("k", ⟨0, (42 : Nat)⟩)], none⟩ : CacheState Nat)
      86400 "k" = none ∧
    Cache.get
      (Cache.set
        (⟨Cache.INFINITE_TTL, [("k", ⟨0, (42 : Nat)⟩)], none⟩ : CacheState Nat)
        0 "k" 7) (0 + 10 * 86400) "k" = some 7 ∧
    Cache.get (⟨86400, [], some [("k", (5 : Nat))]⟩ : CacheState Nat)
      0 "k" = some 5 ∧
    Cache.get (Cache.preload_cache
      (⟨86400, [("k", ⟨0, (42 : Nat)⟩)], none⟩ : CacheState Nat) 5)
      100000 "k" = some 42 := by
  refine ⟨?_, ?_, ?_, ?_, ?_⟩
  · have h := (cache_get_ttl_semantics
      (⟨86400, [("k", ⟨0, (42 : Nat)⟩)], none⟩ : CacheState Nat) 100 "k").1
      rfl (by decide)
    rw [h]
    simp [memoLookup]
  · have h := (cache_get_ttl_semantics
      (⟨86400, [("k", ⟨0, (42 : Nat)⟩)], none⟩ : CacheState Nat) 86400 "k").1
      rfl (by decide)
    rw [h]
    simp [memoLookup]
  · exact (cache_get_ttl_semantics
      (⟨86400, [("k", ⟨0, (42 : Nat)⟩)], none⟩ : CacheState Nat) 0 "k").2.2.1
      7 0 86400
  · exact (cache_get_ttl_semantics
      (⟨86400, [], some [("k", (5 : Nat))]⟩ : CacheState Nat) 0 "k").2.2.2.1
      [("k", (5 : Nat))] 5 rfl (by simp [memoLookup])
  · exact (cache_get_ttl_semantics
      (⟨86400, [("k", ⟨0, (42 : Nat)⟩)], none⟩ : CacheState Nat) 100000
      "k").2.2.2.2 ⟨0, (42 : Nat)⟩ 5 (by simp [memoLookup]) (Or.inr (by decide))

end DiseaseHallmarks
